import Mathlib

/-!
Verification of the `edx-lint` filters-docstring checker
(`edx_lint/pylint/filters_docstring/filters_docstring_check.py`).

The checker applies three regular expressions to a class docstring with
`re.search(pattern, docstring, re.MULTILINE)` and collects one violation
message per pattern that fails to match.  The patterns use only a small
set of regex constructs: literal strings, the class repetitions `\s*`,
`.*` (with DOTALL off, so `[^\n]*`) and `[^\n]+`, alternation, and
concatenation.  None of the patterns contains `^` or `$`, so the
`re.MULTILINE` flag has no effect on them.

We embed exactly that fragment: an expression type `RE`, a matcher
`matchEnds` that returns every suffix reachable by matching a prefix of
the input (complete backtracking semantics, hence a match exists in the
Python engine iff `matchEnds` is nonempty at some start position), and
`re_search` that scans every start position the way `re.search` does.
-/

/-- The regex fragment used by the checker: literal strings, starred and
plus character classes, alternation and concatenation. -/
inductive RE where
  | str : List Char → RE
  | star : (Char → Bool) → RE
  | plus : (Char → Bool) → RE
  | alt : RE → RE → RE
  | seq : RE → RE → RE

/-- All suffixes of `u` reachable by matching `r` against a prefix of `u`.
This enumerates every split a backtracking engine could explore, so it is
empty iff the Python engine finds no match starting at `u`. -/
def matchEnds : RE → List Char → List (List Char)
  | .str s, u => if s.isPrefixOf u then [u.drop s.length] else []
  | .star p, u => (List.range ((u.takeWhile p).length + 1)).map (fun k => u.drop k)
  | .plus p, u => (List.range ((u.takeWhile p).length)).map (fun k => u.drop (k + 1))
  | .alt a b, u => matchEnds a u ++ matchEnds b u
  | .seq a b, u => (matchEnds a u).flatMap (fun t => matchEnds b t)

/-- `re.search` on a character list: a match may start at any position. -/
def searchL (r : RE) (s : List Char) : Bool :=
  s.tails.any (fun t => !(matchEnds r t).isEmpty)

/-- `re.search(pattern, docstring, re.MULTILINE)` viewed as a Boolean test
(the checker only uses the truthiness of the match object; `re.MULTILINE`
only alters `^`/`$`, which no pattern here contains). -/
def re_search (r : RE) (s : String) : Bool :=
  searchL r s.data

/-- Python's `\s` class on `str` patterns: the ASCII whitespace characters
plus the Unicode whitespace characters. -/
def pySpace (c : Char) : Bool :=
  c == ' ' || c == '\t' || c == '\n' || c == '\r' || c == '\x0b' || c == '\x0c'
    || (0x1c ≤ c.toNat && c.toNat ≤ 0x1f) || c.toNat == 0x85 || c.toNat == 0xa0
    || c.toNat == 0x1680 || (0x2000 ≤ c.toNat && c.toNat ≤ 0x200a)
    || c.toNat == 0x2028 || c.toNat == 0x2029 || c.toNat == 0x202f
    || c.toNat == 0x205f || c.toNat == 0x3000

/-- `[^\n]`, which is also what `.` matches since `re.DOTALL` is off. -/
def notNL (c : Char) : Bool := c != '\n'

/-- Concatenation of a list of regexes (right-nested; the empty list is
the empty literal, which matches the empty string). -/
def cats : List RE → RE
  | [] => .str []
  | r :: rs => .seq r (cats rs)

/-- The pattern `Purpose:\s*.*\n`. -/
def purpose_pattern : RE :=
  cats [.str "Purpose:".data, .star pySpace, .star notNL, .str "\n".data]

/-- The pattern `Filter Type:\s*.*\n`. -/
def filter_type_pattern : RE :=
  cats [.str "Filter Type:".data, .star pySpace, .star notNL, .str "\n".data]

/-- The structured-list branch
`-\s*Repository:\s*[^\n]+\s*-\s*Path:\s*[^\n]+\s*-\s*Function\s*or\s*Method:\s*[^\n]+`
of the trigger pattern. -/
def trigger_list_branch : RE :=
  cats [.str "-".data, .star pySpace, .str "Repository:".data, .star pySpace,
    .plus notNL, .star pySpace, .str "-".data, .star pySpace,
    .str "Path:".data, .star pySpace, .plus notNL, .star pySpace,
    .str "-".data, .star pySpace, .str "Function".data, .star pySpace,
    .str "or".data, .star pySpace, .str "Method:".data, .star pySpace,
    .plus notNL]

/-- The pattern
`Trigger:\s*(NA|-\s*Repository:\s*[^\n]+\s*-\s*Path:\s*[^\n]+\s*-\s*Function\s*or\s*Method:\s*[^\n]+)`. -/
def trigger_pattern : RE :=
  cats [.str "Trigger:".data, .star pySpace,
    .alt (.str "NA".data) trigger_list_branch]

/-- `FiltersDocstringFormatChecker.DOCSTRING_MISSING_PURPOSE`. -/
def DOCSTRING_MISSING_PURPOSE : String := "filter-docstring-missing-purpose"

/-- `FiltersDocstringFormatChecker.DOCSTRING_MISSING_TYPE`. -/
def DOCSTRING_MISSING_TYPE : String := "filter-docstring-missing-type"

/-- `FiltersDocstringFormatChecker.DOCSTRING_MISSING_TRIGGER`. -/
def DOCSTRING_MISSING_TRIGGER : String := "filter-docstring-missing-trigger"

/-- The `required_sections` list of `_check_docstring_format`. -/
def required_sections : List (RE × String) :=
  [(purpose_pattern, DOCSTRING_MISSING_PURPOSE),
   (filter_type_pattern, DOCSTRING_MISSING_TYPE),
   (trigger_pattern, DOCSTRING_MISSING_TRIGGER)]

/-- `FiltersDocstringFormatChecker._check_docstring_format`: for each
required section, in order, append its violation message when the section
pattern does not match anywhere in the docstring. -/
def _check_docstring_format (docstring : String) : List String :=
  required_sections.foldl
    (fun error_messages pk =>
      if re_search pk.1 docstring then error_messages
      else error_messages ++ [pk.2]) []

/-- The slice of an astroid class-definition node that `visit_classdef`
consults: the class name, the host-supplied transitive-ancestry query
`node.is_subtype_of`, and the docstring node, absent when the class has no
docstring. -/
structure ClassNode where
  name : String
  is_subtype_of : String → Bool
  doc_node : Option String

/-- One `self.add_message(error_message, node=node, args=(node.name,))`
call: the message id, the node the diagnostic is attached to, and the
argument interpolated into the message template. -/
structure EmittedMessage where
  msg_id : String
  node : String
  args : String
deriving DecidableEq

/-- `FiltersDocstringFormatChecker.visit_classdef`: skip classes that are
not subtypes of `openedx_filters.tooling.OpenEdxPublicFilter`, skip the
base class itself (by exact name), otherwise validate the docstring (an
absent docstring is read as `""`) and emit one message per violation. -/
def visit_classdef (node : ClassNode) : List EmittedMessage :=
  if !(node.is_subtype_of "openedx_filters.tooling.OpenEdxPublicFilter") then []
  else if node.name == "OpenEdxPublicFilter" then []
  else
    let docstring := match node.doc_node with
      | some s => s
      | none => ""
    (_check_docstring_format docstring).map
      (fun error_message => ⟨error_message, node.name, node.name⟩)

/-- A sequence of independent validator calls, one result per call; used to
state that calls share no state. -/
def runCalls (docstrings : List String) : List (List String) :=
  docstrings.map _check_docstring_format

/-- Modelled from the spec: the Purpose rule exactly as §4.1 item 1 of the
spec words it — the text "contains a line beginning with the literal token
\"Purpose:\" followed by arbitrary trailing content up to and including a
newline".  `atLineStart` records whether the current position begins the
text or follows a newline. -/
def spec_purpose_line : Bool → List Char → Bool
  | _, [] => false
  | atLineStart, c :: cs =>
    (atLineStart && "Purpose:".data.isPrefixOf (c :: cs) && (c :: cs).contains '\n')
      || spec_purpose_line (c == '\n') cs

/-! ### Basic properties of the matcher -/

/-- Anything `matchEnds` returns is a suffix of its input: a match only
consumes an initial segment. -/
lemma suffix_of_mem_matchEnds {r : RE} {u t : List Char}
    (h : t ∈ matchEnds r u) : t <:+ u := by
  induction r generalizing u t with
  | str s =>
    simp only [matchEnds] at h
    split at h
    · rcases List.mem_singleton.mp h with rfl
      exact List.drop_suffix _ _
    · exact absurd h (List.not_mem_nil _)
  | star p =>
    simp only [matchEnds, List.mem_map] at h
    rcases h with ⟨k, -, rfl⟩
    exact List.drop_suffix _ _
  | plus p =>
    simp only [matchEnds, List.mem_map] at h
    rcases h with ⟨k, -, rfl⟩
    exact List.drop_suffix _ _
  | alt a b iha ihb =>
    rcases List.mem_append.mp h with h | h
    · exact iha h
    · exact ihb h
  | seq a b iha ihb =>
    simp only [matchEnds, List.mem_flatMap] at h
    rcases h with ⟨t1, h1, h2⟩
    exact (ihb h2).trans (iha h1)

/-- A literal consumes exactly itself. -/
lemma mem_matchEnds_str (s v : List Char) : v ∈ matchEnds (.str s) (s ++ v) := by
  simp [matchEnds, List.isPrefixOf_iff_prefix, List.prefix_append, List.drop_left]

/-- A starred class can consume any leading run of its characters. -/
lemma mem_matchEnds_star {p : Char → Bool} {w : List Char}
    (hw : w.all p = true) (v : List Char) : v ∈ matchEnds (.star p) (w ++ v) := by
  simp only [matchEnds, List.mem_map]
  refine ⟨w.length, List.mem_range.mpr ?_, List.drop_left w v⟩
  have : (w ++ v).takeWhile p = w ++ v.takeWhile p :=
    List.takeWhile_append_of_pos (List.all_eq_true.mp hw)
  rw [this, List.length_append]
  omega

/-- A plus class can consume any nonempty leading run of its characters. -/
lemma mem_matchEnds_plus {p : Char → Bool} {w : List Char}
    (hw : w.all p = true) (hne : w ≠ []) (v : List Char) :
    v ∈ matchEnds (.plus p) (w ++ v) := by
  simp only [matchEnds, List.mem_map]
  have hlen : 1 ≤ w.length := List.length_pos.mpr hne
  refine ⟨w.length - 1, List.mem_range.mpr ?_, ?_⟩
  · have : (w ++ v).takeWhile p = w ++ v.takeWhile p :=
      List.takeWhile_append_of_pos (List.all_eq_true.mp hw)
    rw [this, List.length_append]
    omega
  · rw [Nat.sub_add_cancel hlen]
    exact List.drop_left w v

/-- Matching the right branch of an alternation. -/
lemma mem_matchEnds_alt_right {a b : RE} {u v : List Char}
    (h : v ∈ matchEnds b u) : v ∈ matchEnds (.alt a b) u :=
  List.mem_append.mpr (Or.inr h)

/-- Matching the left branch of an alternation. -/
lemma mem_matchEnds_alt_left {a b : RE} {u v : List Char}
    (h : v ∈ matchEnds a u) : v ∈ matchEnds (.alt a b) u :=
  List.mem_append.mpr (Or.inl h)

/-- Chaining a concatenation. -/
lemma mem_matchEnds_seq {a b : RE} {u t v : List Char}
    (h1 : t ∈ matchEnds a u) (h2 : v ∈ matchEnds b t) :
    v ∈ matchEnds (.seq a b) u := by
  simp only [matchEnds, List.mem_flatMap]
  exact ⟨t, h1, h2⟩

/-- The empty literal consumes nothing. -/
lemma mem_matchEnds_nilstr (v : List Char) : v ∈ matchEnds (.str []) v := by
  simp [matchEnds]

/-- A match of `r` found anywhere in `s` makes the whole-text scan succeed. -/
lemma searchL_of_mem {r : RE} {s t x : List Char}
    (hsuf : t <:+ s) (h : x ∈ matchEnds r t) : searchL r s = true := by
  simp only [searchL, List.any_eq_true]
  refine ⟨t, (List.mem_tails _ _).mpr hsuf, ?_⟩
  simp [List.isEmpty_iff, List.ne_nil_of_mem h]

/-- Inversion for concatenations: the first factor matched a prefix and
left an intermediate remainder. -/
lemma matchEnds_seq_inv {a b : RE} {u v : List Char}
    (h : v ∈ matchEnds (.seq a b) u) :
    ∃ t, t ∈ matchEnds a u ∧ v ∈ matchEnds b t := by
  simpa only [matchEnds, List.mem_flatMap] using h

/-- Inversion for literals: a successful literal match splits the input. -/
lemma matchEnds_str_inv {s u t : List Char}
    (h : t ∈ matchEnds (.str s) u) : u = s ++ t := by
  simp only [matchEnds] at h
  split at h
  · next hpre =>
    rcases List.mem_singleton.mp h with rfl
    rcases List.isPrefixOf_iff_prefix.mp hpre with ⟨v, rfl⟩
    rw [List.drop_left]
  · exact absurd h (List.not_mem_nil _)

/-! ### The validator as three independent tests -/

/-- `_check_docstring_format` is the concatenation of the three independent
rule outcomes, in the fixed rule order. -/
lemma check_eq (d : String) :
    _check_docstring_format d =
      (if re_search purpose_pattern d then [] else [DOCSTRING_MISSING_PURPOSE]) ++
      (if re_search filter_type_pattern d then [] else [DOCSTRING_MISSING_TYPE]) ++
      (if re_search trigger_pattern d then [] else [DOCSTRING_MISSING_TRIGGER]) := by
  simp only [_check_docstring_format, required_sections, List.foldl]
  cases hp : re_search purpose_pattern d <;>
    cases hf : re_search filter_type_pattern d <;>
      cases ht : re_search trigger_pattern d <;> simp

/-- The validator result is always an in-order selection from the fixed
three-element rule list. -/
lemma check_sublist (d : String) :
    (_check_docstring_format d).Sublist
      [DOCSTRING_MISSING_PURPOSE, DOCSTRING_MISSING_TYPE, DOCSTRING_MISSING_TRIGGER] := by
  rw [check_eq]
  cases hp : re_search purpose_pattern d <;>
    cases hf : re_search filter_type_pattern d <;>
      cases ht : re_search trigger_pattern d <;> decide

/-- `MISSING_PURPOSE` is reported exactly when the purpose pattern fails. -/
lemma purpose_mem_check (d : String) :
    DOCSTRING_MISSING_PURPOSE ∈ _check_docstring_format d ↔
      re_search purpose_pattern d = false := by
  rw [check_eq]
  cases hp : re_search purpose_pattern d <;>
    cases hf : re_search filter_type_pattern d <;>
      cases ht : re_search trigger_pattern d <;> decide

/-- `MISSING_TRIGGER` is reported exactly when the trigger pattern fails. -/
lemma trigger_mem_check (d : String) :
    DOCSTRING_MISSING_TRIGGER ∈ _check_docstring_format d ↔
      re_search trigger_pattern d = false := by
  rw [check_eq]
  cases hp : re_search purpose_pattern d <;>
    cases hf : re_search filter_type_pattern d <;>
      cases ht : re_search trigger_pattern d <;> decide

/-! ### Exact characterization of the purpose pattern -/

/-- Splitting a list at the first occurrence of a member. -/
lemma split_first_newline {b : List Char} (h : '\n' ∈ b) :
    ∃ c e, b = c ++ '\n' :: e ∧ c.all notNL = true := by
  induction b with
  | nil => exact absurd h (List.not_mem_nil _)
  | cons x xs ih =>
    by_cases hx : x = '\n'
    · exact ⟨[], xs, by simp [hx], rfl⟩
    · have hmem : '\n' ∈ xs := by
        rcases List.mem_cons.mp h with h' | h'
        · exact absurd h'.symm hx
        · exact h'
      rcases ih hmem with ⟨c, e, hce, hall⟩
      refine ⟨x :: c, e, by simp [hce], ?_⟩
      simp only [List.all_cons, hall, Bool.and_true, notNL]
      simpa using hx

/-- The purpose pattern matches exactly the texts with an occurrence of
`Purpose:` (anywhere, not only at a line start) followed, at any later
position, by a newline.  The `\s*` can always be taken empty and `.*` can
always absorb everything up to the first newline, so nothing more is
required; conversely a match must end at a literal newline after the
token. -/
lemma searchL_purpose_iff (s : List Char) :
    searchL purpose_pattern s = true ↔
      ∃ a b, s = a ++ "Purpose:".data ++ b ∧ '\n' ∈ b := by
  constructor
  · intro h
    simp only [searchL, List.any_eq_true] at h
    rcases h with ⟨t, htails, hne⟩
    have hsuf : t <:+ s := (List.mem_tails _ _).mp htails
    have hnil : matchEnds purpose_pattern t ≠ [] := by
      intro hemp
      rw [hemp] at hne
      simp at hne
    rcases List.exists_mem_of_ne_nil _ hnil with ⟨x, hx⟩
    simp only [purpose_pattern, cats] at hx
    rcases matchEnds_seq_inv hx with ⟨t1, h1, hx1⟩
    rcases matchEnds_seq_inv hx1 with ⟨t2, h2, hx2⟩
    rcases matchEnds_seq_inv hx2 with ⟨t3, h3, hx3⟩
    rcases matchEnds_seq_inv hx3 with ⟨t4, h4, -⟩
    have ht : t = "Purpose:".data ++ t1 := matchEnds_str_inv h1
    have h12 : t2 <:+ t1 := suffix_of_mem_matchEnds h2
    have h23 : t3 <:+ t2 := suffix_of_mem_matchEnds h3
    have ht34 : t3 = "\n".data ++ t4 := matchEnds_str_inv h4
    rcases hsuf with ⟨a, rfl⟩
    refine ⟨a, t1, by rw [ht, List.append_assoc], ?_⟩
    have : '\n' ∈ t3 := by rw [ht34]; exact List.mem_append_left _ (by decide)
    exact h12.subset (h23.subset this)
  · rintro ⟨a, b, rfl, hb⟩
    rcases split_first_newline hb with ⟨c, e, rfl, hall⟩
    refine searchL_of_mem (t := "Purpose:".data ++ (c ++ '\n' :: e)) (x := e)
      ⟨a, by rw [List.append_assoc]⟩ ?_
    simp only [purpose_pattern, cats]
    have hsp : (c ++ '\n' :: e) ∈ matchEnds (.star pySpace) (c ++ '\n' :: e) := by
      simpa using mem_matchEnds_star (p := pySpace) (w := []) rfl (c ++ '\n' :: e)
    refine mem_matchEnds_seq (mem_matchEnds_str _ _) ?_
    refine mem_matchEnds_seq hsp ?_
    refine mem_matchEnds_seq (mem_matchEnds_star hall ('\n' :: e)) ?_
    exact mem_matchEnds_seq (mem_matchEnds_str "\n".data e) (mem_matchEnds_nilstr e)

/-- A docstring on which the trigger pattern matches gets no
MISSING_TRIGGER. -/
lemma trigger_not_mem_of_searchL {l : List Char}
    (h : searchL trigger_pattern l = true) :
    DOCSTRING_MISSING_TRIGGER ∉ _check_docstring_format (String.mk l) := by
  rw [trigger_mem_check]
  have hre : re_search trigger_pattern (String.mk l) = true := h
  simp [hre]

/-! ### Claims -/

/-- C1 (counterexample): the claim ties MISSING_PURPOSE to the absence of a
*line beginning with* `Purpose:`, but the pattern `Purpose:\s*.*\n` is
searched without a `^` anchor, so a mid-line occurrence also satisfies the
rule.  On `"xPurpose: y\n"` no line begins with `Purpose:`, yet the
validator reports no purpose violation. -/
theorem purpose_rule_line_anchor_counterexample :
    ¬ (DOCSTRING_MISSING_PURPOSE ∈ _check_docstring_format "xPurpose: y\n" ↔
        spec_purpose_line true "xPurpose: y\n".data = false) := by
  decide

/-- C1 (amended): MISSING_PURPOSE appears in the validation result exactly
when the text does not contain an occurrence of the token `Purpose:` — at
any position, not only at the start of a line — followed at some later
position by a newline character. -/
theorem purpose_rule_characterization (d : String) :
    DOCSTRING_MISSING_PURPOSE ∈ _check_docstring_format d ↔
      ¬ ∃ a b, d.data = a ++ "Purpose:".data ++ b ∧ '\n' ∈ b := by
  rw [purpose_mem_check]
  show searchL purpose_pattern d.data = false ↔ _
  rw [← searchL_purpose_iff d.data]
  cases searchL purpose_pattern d.data <;> simp

/-- C2: whenever the purpose pattern fails to match (the Purpose rule is
violated), the result contains MISSING_PURPOSE exactly once, whatever the
other two rules decide. -/
theorem missing_purpose_exactly_once (d : String)
    (h : re_search purpose_pattern d = false) :
    (_check_docstring_format d).count DOCSTRING_MISSING_PURPOSE = 1 := by
  rw [check_eq, h]
  cases hf : re_search filter_type_pattern d <;>
    cases ht : re_search trigger_pattern d <;> decide

/-- Witness for C2 at the empty docstring. -/
theorem missing_purpose_exactly_once_witness :
    re_search purpose_pattern "" = false ∧
      (_check_docstring_format "").count DOCSTRING_MISSING_PURPOSE = 1 :=
  ⟨by decide, missing_purpose_exactly_once "" (by decide)⟩

/-- C3: the empty docstring yields exactly the three violations in the
fixed order Purpose, Type, Trigger. -/
theorem empty_docstring_all_three :
    _check_docstring_format "" =
      [DOCSTRING_MISSING_PURPOSE, DOCSTRING_MISSING_TYPE, DOCSTRING_MISSING_TRIGGER] := by
  decide

/-- C4: the fully well-formed docstring with a structured Trigger list,
each field on its own line, yields no violations. -/
theorem well_formed_docstring_ok :
    _check_docstring_format
      "Purpose:\nDoes X.\n\nFilter Type:\n  org.example.v1\n\nTrigger:\n- Repository: r\n- Path: p\n- Function or Method: f\n" = [] := by
  decide

/-- C5: the result is always an in-order selection from the fixed rule
order [Purpose, Type, Trigger]; in particular whenever two or more
violations are reported they appear in that order, whatever the docstring
looks like. -/
theorem violations_in_fixed_order (d : String) :
    (_check_docstring_format d).Sublist
      [DOCSTRING_MISSING_PURPOSE, DOCSTRING_MISSING_TYPE, DOCSTRING_MISSING_TRIGGER] :=
  check_sublist d

/-- C6: the validator is total (a Lean function) and, on every docstring,
returns at most three violations, each drawn from the three violation
kinds and each appearing at most once. -/
theorem validator_result_well_formed (d : String) :
    (_check_docstring_format d).length ≤ 3 ∧
      (∀ k ∈ _check_docstring_format d,
        k = DOCSTRING_MISSING_PURPOSE ∨ k = DOCSTRING_MISSING_TYPE ∨
          k = DOCSTRING_MISSING_TRIGGER) ∧
      (∀ k, (_check_docstring_format d).count k ≤ 1) := by
  have hs := check_sublist d
  refine ⟨?_, ?_, ?_⟩
  · simpa using hs.length_le
  · intro k hk
    simpa using hs.subset hk
  · intro k
    have hnd : (_check_docstring_format d).Nodup := (by decide : List.Nodup
      [DOCSTRING_MISSING_PURPOSE, DOCSTRING_MISSING_TYPE, DOCSTRING_MISSING_TRIGGER]).sublist hs
    exact List.nodup_iff_count_le_one.mp hnd k

/-- C7: validation is deterministic and stateless — in a sequence of
validator calls, two consecutive calls on the same text produce two equal
results, and the outcome is unaffected by any earlier calls. -/
theorem validation_deterministic_stateless (history : List String) (d : String) :
    runCalls (history ++ [d, d]) =
      runCalls history ++ [_check_docstring_format d, _check_docstring_format d] := by
  simp [runCalls]

/-- C8: `visit_classdef` emits nothing for classes that are not subtypes
of `openedx_filters.tooling.OpenEdxPublicFilter`, emits nothing for the
class named exactly `OpenEdxPublicFilter` itself, and for every other
subtype emits one message per violation returned by the validator, with
the class name as the message argument. -/
theorem visit_classdef_selection_and_emission (node : ClassNode) :
    (node.is_subtype_of "openedx_filters.tooling.OpenEdxPublicFilter" = false →
      visit_classdef node = []) ∧
    (node.name = "OpenEdxPublicFilter" → visit_classdef node = []) ∧
    (node.is_subtype_of "openedx_filters.tooling.OpenEdxPublicFilter" = true →
      node.name ≠ "OpenEdxPublicFilter" →
      visit_classdef node =
        (_check_docstring_format (node.doc_node.getD "")).map
          (fun error_message => ⟨error_message, node.name, node.name⟩)) := by
  refine ⟨?_, ?_, ?_⟩
  · intro h
    simp [visit_classdef, h]
  · intro h
    cases hsub : node.is_subtype_of "openedx_filters.tooling.OpenEdxPublicFilter" <;>
      simp [visit_classdef, hsub, h]
  · intro h1 h2
    cases hd : node.doc_node <;>
      simp [visit_classdef, h1, h2, hd, Option.getD]

/-- Witness for C8: a non-subtype is skipped, the base class is skipped,
and a qualifying subtype with an empty docstring gets all three
diagnostics carrying its class name. -/
theorem visit_classdef_selection_and_emission_witness :
    visit_classdef ⟨"SomeClass", fun _ => false, some "x"⟩ = [] ∧
    visit_classdef ⟨"OpenEdxPublicFilter", fun _ => true, none⟩ = [] ∧
    visit_classdef
        ⟨"MyFilter", fun s => s == "openedx_filters.tooling.OpenEdxPublicFilter", some ""⟩ =
      [⟨DOCSTRING_MISSING_PURPOSE, "MyFilter", "MyFilter"⟩,
       ⟨DOCSTRING_MISSING_TYPE, "MyFilter", "MyFilter"⟩,
       ⟨DOCSTRING_MISSING_TRIGGER, "MyFilter", "MyFilter"⟩] := by
  refine ⟨(visit_classdef_selection_and_emission _).1 rfl,
    (visit_classdef_selection_and_emission _).2.1 rfl, ?_⟩
  have h := (visit_classdef_selection_and_emission
      ⟨"MyFilter", fun s => s == "openedx_filters.tooling.OpenEdxPublicFilter",
        some ""⟩).2.2 (by decide) (by decide)
  rw [h]
  decide

/-- C9: the structured-list branch of the Trigger rule accepts the three
fields separated by arbitrary whitespace runs (each `wi` is a possibly
empty all-whitespace run), with arbitrary nonempty newline-free field
values `r`, `p`, `f`, wherever the section sits in the docstring — the
fields need not be on separate lines, so no MISSING_TRIGGER is
reported. -/
theorem trigger_structured_list_whitespace_lax
    (pre suf w1 w2 w3 w4 w5 w6 w7 w8 w9 w10 w11 r p f : List Char)
    (hw1 : w1.all pySpace = true) (hw2 : w2.all pySpace = true)
    (hw3 : w3.all pySpace = true) (hw4 : w4.all pySpace = true)
    (hw5 : w5.all pySpace = true) (hw6 : w6.all pySpace = true)
    (hw7 : w7.all pySpace = true) (hw8 : w8.all pySpace = true)
    (hw9 : w9.all pySpace = true) (hw10 : w10.all pySpace = true)
    (hw11 : w11.all pySpace = true)
    (hrne : r ≠ []) (hrnl : r.all notNL = true)
    (hpne : p ≠ []) (hpnl : p.all notNL = true)
    (hfne : f ≠ []) (hfnl : f.all notNL = true) :
    DOCSTRING_MISSING_TRIGGER ∉
      _check_docstring_format (String.mk (pre ++ ("Trigger:".data ++ (w1 ++
        ("-".data ++ (w2 ++ ("Repository:".data ++ (w3 ++ (r ++ (w4 ++
        ("-".data ++ (w5 ++ ("Path:".data ++ (w6 ++ (p ++ (w7 ++
        ("-".data ++ (w8 ++ ("Function".data ++ (w9 ++ ("or".data ++ (w10 ++
        ("Method:".data ++ (w11 ++ (f ++ suf))))))))))))))))))))))))) := by
  apply trigger_not_mem_of_searchL
  refine searchL_of_mem (x := suf) ⟨pre, rfl⟩ ?_
  simp only [trigger_pattern, trigger_list_branch, cats]
  refine mem_matchEnds_seq (mem_matchEnds_str _ _) ?_
  refine mem_matchEnds_seq (mem_matchEnds_star hw1 _) ?_
  refine mem_matchEnds_seq (mem_matchEnds_alt_right ?_) (mem_matchEnds_nilstr suf)
  refine mem_matchEnds_seq (mem_matchEnds_str _ _) ?_
  refine mem_matchEnds_seq (mem_matchEnds_star hw2 _) ?_
  refine mem_matchEnds_seq (mem_matchEnds_str _ _) ?_
  refine mem_matchEnds_seq (mem_matchEnds_star hw3 _) ?_
  refine mem_matchEnds_seq (mem_matchEnds_plus hrnl hrne _) ?_
  refine mem_matchEnds_seq (mem_matchEnds_star hw4 _) ?_
  refine mem_matchEnds_seq (mem_matchEnds_str _ _) ?_
  refine mem_matchEnds_seq (mem_matchEnds_star hw5 _) ?_
  refine mem_matchEnds_seq (mem_matchEnds_str _ _) ?_
  refine mem_matchEnds_seq (mem_matchEnds_star hw6 _) ?_
  refine mem_matchEnds_seq (mem_matchEnds_plus hpnl hpne _) ?_
  refine mem_matchEnds_seq (mem_matchEnds_star hw7 _) ?_
  refine mem_matchEnds_seq (mem_matchEnds_str _ _) ?_
  refine mem_matchEnds_seq (mem_matchEnds_star hw8 _) ?_
  refine mem_matchEnds_seq (mem_matchEnds_str _ _) ?_
  refine mem_matchEnds_seq (mem_matchEnds_star hw9 _) ?_
  refine mem_matchEnds_seq (mem_matchEnds_str _ _) ?_
  refine mem_matchEnds_seq (mem_matchEnds_star hw10 _) ?_
  refine mem_matchEnds_seq (mem_matchEnds_str _ _) ?_
  refine mem_matchEnds_seq (mem_matchEnds_star hw11 _) ?_
  exact mem_matchEnds_seq (mem_matchEnds_plus hfnl hfne _) (mem_matchEnds_nilstr suf)

/-- Witness for C9: the one-line trigger section of the claim, with all
three fields on a single line, produces no MISSING_TRIGGER. -/
theorem trigger_structured_list_whitespace_lax_witness :
    DOCSTRING_MISSING_TRIGGER ∉
      _check_docstring_format "Trigger: - Repository: r - Path: p - Function or Method: f" :=
  trigger_structured_list_whitespace_lax [] [] [' '] [' '] [' '] [' '] [' ']
    [' '] [' '] [' '] [' '] [' '] [' '] ['r'] ['p'] ['f']
    (by decide) (by decide) (by decide) (by decide) (by decide) (by decide)
    (by decide) (by decide) (by decide) (by decide) (by decide)
    (by decide) (by decide) (by decide) (by decide) (by decide) (by decide)

/-- C10: the `NA` alternative of the Trigger rule is a prefix match, not a
whole-token match: `Trigger:` followed by any whitespace run and then any
text starting with the two characters `NA` satisfies the rule, so no
MISSING_TRIGGER is reported. -/
theorem trigger_na_prefix_match (pre w suf : List Char)
    (hw : w.all pySpace = true) :
    DOCSTRING_MISSING_TRIGGER ∉
      _check_docstring_format
        (String.mk (pre ++ ("Trigger:".data ++ (w ++ ("NA".data ++ suf))))) := by
  apply trigger_not_mem_of_searchL
  refine searchL_of_mem (x := suf) ⟨pre, rfl⟩ ?_
  simp only [trigger_pattern, cats]
  refine mem_matchEnds_seq (mem_matchEnds_str _ _) ?_
  refine mem_matchEnds_seq (mem_matchEnds_star hw _) ?_
  exact mem_matchEnds_seq (mem_matchEnds_alt_left (mem_matchEnds_str _ _))
    (mem_matchEnds_nilstr suf)

/-- Witness for C10 at the docstring `"Trigger: NAME"`: `NAME` begins with
`NA`, so the rule is satisfied even though the token is not `NA`. -/
theorem trigger_na_prefix_match_witness :
    DOCSTRING_MISSING_TRIGGER ∉ _check_docstring_format "Trigger: NAME" :=
  trigger_na_prefix_match [] [' '] ['M', 'E'] (by decide)
